import Mathlib

/-!
# Code Rivals — lobby/match engine: shallow embedding and verification

This file embeds the lobby/match orchestration engine of the Code Rivals
backend (`routes/lobby.js`, `server.js`, `models/User.js`) as executable Lean
definitions and proves the specified properties about them.

Conventions of the embedding:
* JavaScript numbers that the code can drive negative (lives, scores, elo,
  points, tokens, shields, prices) are `Int`; counters that only start at 0
  and increment (warning count, round counters, indices, cycles) are `Nat`.
* Mongoose persistence is modelled by pure state passing; the user collection
  is a map `String → Option User`.  A handler that replies with an HTTP error
  and never reaches `save()` is modelled as `Except.error msg`, so an `error`
  result means the persisted state is unchanged.
* `Math.random()`-driven card draws are modelled by an oracle `pick : Nat → Nat`
  supplied by the environment; the drawn index is taken modulo the catalog
  size, matching `Math.floor(Math.random() * abilityCards.length)`.
* String operations of the handlers (`toLowerCase`, `startsWith`, `includes`)
  are modelled on the character list `String.data`, ASCII case mapping as in
  `Char.toLower`.
-/

/-- Player kind, `type: { enum: ['human', 'bot'] }` in `playerInLobbySchema`. -/
inductive PKind where
  | human
  | bot
deriving DecidableEq, Repr

instance : BEq PKind := ⟨fun a b => decide (a = b)⟩

/-- An ability card as stored in a player's hand: `{ id: String, name: String }`. -/
structure AbilityCard where
  id : String
  name : String
deriving DecidableEq, Repr

/-- A question: `{ q: String, a: String, hint: String }` (hint omitted where absent). -/
structure Question where
  q : String
  a : String
deriving DecidableEq, Repr

/-- A player embedded in a lobby (`playerInLobbySchema`). -/
structure PlayerInLobby where
  id : String
  name : String
  isReady : Bool
  kind : PKind
  elo : Int
  casualPoints : Int
  lives : Int
  currentRoundScore : Int
  roundCorrectAnswers : Nat
  roundTotalAnswers : Nat
  cards : List AbilityCard
  shields : Int
  goldenDefenseUsed : Bool
deriving DecidableEq, Repr

/-- The lobby aggregate (`lobbySchema`); chat messages and timestamps are not
needed by any verified property and are omitted. -/
structure Lobby where
  lobbyId : String
  name : String
  kind : String
  hostId : String
  players : List PlayerInLobby
  maxPlayers : Int
  gameStarted : Bool
  isRanked : Bool
  isCustom : Bool
  isFrenzyMode : Bool
  initialLives : Int
  questionTimer : Int
  playerCycles : Nat
  currentQuestionIndex : Nat
  currentPlayerIndex : Nat
  questions : List Question
deriving DecidableEq, Repr

/-- The durable user profile (`models/User.js`), password omitted.
`penaltyEndTime` is a millisecond timestamp, `none` for `null`. -/
structure User where
  username : String
  elo : Int
  casualPoints : Int
  rankedCorrectAnswers : Nat
  rankedTotalAnswers : Nat
  casualCorrectAnswers : Nat
  casualTotalAnswers : Nat
  soloStage : Nat
  tokens : Int
  inventory : List String
  equippedTitle : String
  warningCount : Nat
  penaltyEndTime : Option Int
deriving DecidableEq, Repr

/-- Decidable equality of handler results, for checking concrete runs. -/
instance {ε α : Type} [DecidableEq ε] [DecidableEq α] : DecidableEq (Except ε α) :=
  fun a b =>
    match a, b with
    | .ok x, .ok y =>
        if h : x = y then isTrue (by rw [h]) else isFalse (by simp [h])
    | .error x, .error y =>
        if h : x = y then isTrue (by rw [h]) else isFalse (by simp [h])
    | .ok _, .error _ => isFalse (by simp)
    | .error _, .ok _ => isFalse (by simp)

/-- The persisted user collection, keyed by user id. -/
def Store : Type := String → Option User

/-- Write-back of one user document (`user.save()`). -/
def updStore (store : Store) (uid : String) (u : User) : Store :=
  fun i => if i = uid then some u else store i

/-- `user.penaltyEndTime && new Date() < user.penaltyEndTime`:
a `Date` object is always truthy, so the check is exactly `now < t`. -/
def penalized (u : User) (now : Int) : Bool :=
  match u.penaltyEndTime with
  | some t => decide (now < t)
  | none => false

/-- JavaScript `String.prototype.toLowerCase` (ASCII range, as used by the
answers in the question banks). -/
def jsToLowerCase (s : String) : String :=
  String.mk (s.data.map Char.toLower)

/-- JavaScript `String.prototype.startsWith`. -/
def jsStartsWith (s pre : String) : Bool :=
  pre.data.isPrefixOf s.data

/-- JavaScript `String.prototype.includes`, on character lists. -/
def listContainsSub (sub : List Char) : List Char → Bool
  | [] => sub.isEmpty
  | c :: rest => List.isPrefixOf sub (c :: rest) || listContainsSub sub rest

/-- JavaScript `String.prototype.includes`. -/
def jsIncludes (s sub : String) : Bool :=
  listContainsSub sub.data s.data

/-- The ability-card catalog (`abilityCards`), id and name; descriptions and
icons are presentation data never read by the engine. -/
def abilityCards : List AbilityCard :=
  [ { id := "card_copy", name := "Copy" },
    { id := "card_control", name := "Control" },
    { id := "card_golden_defense", name := "Golden Defense" },
    { id := "card_meta_vision", name := "Meta Vision" },
    { id := "card_evolved_meta_vision", name := "Evolved Meta Vision" } ]

/-- The `qna` question bank (`originalQuestions`). -/
def originalQuestions : List Question :=
  [ { q := "What is the output of: cout << 2 + 2;", a := "4" },
    { q := "Which keyword is used for constant?", a := "const" },
    { q := "How many bytes is an int?", a := "4" },
    { q := "C++ pointer access operator?", a := "->" },
    { q := "Declare a pointer to int", a := "int* ptr;" } ]

/-- The `fill-in-blanks` question bank (`fillInBlanksQuestions`). -/
def fillInBlanksQuestions : List Question :=
  [ { q := "int main() lbrace cout << Hello, ___; return 0; rbrace", a := "world" },
    { q := "int ___ = 10;", a := "x" },
    { q := "for (int i = 0; i < ___; i++)", a := "10" },
    { q := "class MyClass public: MyClass()", a := "MyClass" },
    { q := "std::string ___ = C++;", a := "language" } ]

/-- One `Math.random()` draw from the catalog:
`abilityCards[Math.floor(Math.random() * abilityCards.length)]`;
the oracle value is reduced modulo the catalog length. -/
def drawCard (r : Nat) : AbilityCard :=
  abilityCards.getD (r % abilityCards.length) { id := "", name := "" }

/-- `getStartingCards` as defined identically in the create, join and start
handlers: three random cards in frenzy mode, else an empty hand. -/
def getStartingCards (isFrenzyMode : Bool) (pick : Nat → Nat) : List AbilityCard :=
  if !isFrenzyMode then []
  else (List.range 3).map fun i => drawCard (pick i)

/-- Raw answer correctness, `routes/lobby.js` line 461:
`userAnswer.toLowerCase() === currentQuestion.a.toLowerCase()`.
Note: the submitted answer is *not* trimmed. -/
def rawCorrect (userAnswer canonical : String) : Bool :=
  jsToLowerCase userAnswer == jsToLowerCase canonical

/-- Modelled from the spec: `spec.md` §4.3 step 2 describes raw correctness as
"case-insensitive equality of trimmed answer vs. canonical answer".  The
trimming (of ASCII whitespace, as JavaScript `trim` would remove) is stated
here for comparison with the source-derived `rawCorrect`, which does not trim. -/
def specRawCorrect (userAnswer canonical : String) : Bool :=
  let isWs := fun c : Char => c = ' ' || c = '\t' || c = '\n' || c = '\r'
  let trimmed := ((userAnswer.data.dropWhile isWs).reverse.dropWhile isWs).reverse
  String.mk (trimmed.map Char.toLower) == jsToLowerCase canonical

/-- Lines 463–483 of the answer handler: shield interception, then the
round-counter / score / life update of the player in turn, all in terms of the
raw correctness value. -/
def resolvePlayer (isCorrect : Bool) (p0 : PlayerInLobby) : PlayerInLobby :=
  let useShield := !isCorrect && decide (0 < p0.shields)
  let p1 := if useShield then { p0 with shields := p0.shields - 1 } else p0
  let actualIsCorrect := if useShield then true else isCorrect
  let p2 := { p1 with roundTotalAnswers := p1.roundTotalAnswers + 1 }
  if actualIsCorrect then
    { p2 with roundCorrectAnswers := p2.roundCorrectAnswers + 1,
              currentRoundScore := p2.currentRoundScore + 100 }
  else
    { p2 with lives := p2.lives - 1,
              currentRoundScore := p2.currentRoundScore - 50 }
/-- Lines 485–508 of the answer handler: the durable ledger update, keyed by
the *raw* correctness value (`isCorrect`, not `actualIsCorrect`). -/
def applyLedger (isRanked isCorrect : Bool) (u : User) : User :=
  if isRanked then
    let u := { u with rankedTotalAnswers := u.rankedTotalAnswers + 1 }
    let u :=
      if isCorrect then
        { u with rankedCorrectAnswers := u.rankedCorrectAnswers + 1, elo := u.elo + 15 }
      else { u with elo := u.elo - 10 }
    if u.elo < 0 then { u with elo := 0 } else u
  else
    let u := { u with casualTotalAnswers := u.casualTotalAnswers + 1 }
    let u :=
      if isCorrect then
        { u with casualCorrectAnswers := u.casualCorrectAnswers + 1,
                 casualPoints := u.casualPoints + 10 }
      else { u with casualPoints := u.casualPoints - 5 }
    if u.casualPoints < 0 then { u with casualPoints := 0 } else u

/-- `lobby.players.filter(p => p.type === 'human')`. -/
def humansOf (ps : List PlayerInLobby) : List PlayerInLobby :=
  ps.filter fun p => p.kind == PKind.human

/-- In-place mutation of the object returned by
`lobby.players.find(p => p.id === userId)`: the *first* player with the given
id is replaced by its image under `f`; all others are untouched. -/
def updateFirst (uid : String) (f : PlayerInLobby → PlayerInLobby) :
    List PlayerInLobby → List PlayerInLobby
  | [] => []
  | p :: ps => if p.id = uid then f p :: ps else p :: updateFirst uid f ps

/-- The roster after the in-turn player's resolution and the elimination check
(lines 463–514): the found player is mutated by `resolvePlayer`, and if their
lives dropped to `≤ 0` every entry with their id is filtered out. -/
def rosterAfterResolve (ps : List PlayerInLobby) (uid : String) (isCorrect : Bool) :
    List PlayerInLobby :=
  match ps.find? (fun p => p.id == uid) with
  | none => ps
  | some p0 =>
      let ps' := updateFirst uid (resolvePlayer isCorrect) ps
      if (resolvePlayer isCorrect p0).lives ≤ 0 then ps'.filter (fun p => p.id != uid)
      else ps'

/-- `User.findById(userId)` followed by the ledger update and `user.save()`;
when the user document is missing the handler skips the update. -/
def ledgerStore (store : Store) (uid : String) (isRanked isCorrect : Bool) : Store :=
  match store uid with
  | none => store
  | some u => updStore store uid (applyLedger isRanked isCorrect u)

/-- Lines 520–531: find the (first) remaining human, and if their user document
exists, credit the token payout to it. -/
def creditWinner (store : Store) (ps : List PlayerInLobby) (payout : Int) : Store :=
  match ps.find? (fun p => p.kind == PKind.human) with
  | none => store
  | some w =>
      match store w.id with
      | none => store
      | some wu => updStore store w.id { wu with tokens := wu.tokens + payout }

/-- Lines 540–542, the defensive skip loop:
`while (players[idx] && players[idx].lives <= 0) idx = (idx+1) % players.length`.
The loop is modelled with explicit fuel (the callers pass the roster length);
when every player is dead the JavaScript loop would not terminate, which no
reachable state triggers. -/
def skipDead (ps : List PlayerInLobby) : Nat → Nat → Nat
  | idx, 0 => idx
  | idx, fuel + 1 =>
      match ps.get? idx with
      | some p => if p.lives ≤ 0 then skipDead ps ((idx + 1) % ps.length) fuel else idx
      | none => idx

/-- Line 557: push one card to every remaining player's hand. -/
def giveCard (c : AbilityCard) (ps : List PlayerInLobby) : List PlayerInLobby :=
  ps.map fun p => { p with cards := p.cards ++ [c] }

/-- The `POST /api/lobbies/:lobbyId/answer` handler (lines 444–570) on a loaded
lobby.  `card` is the oracle for the card drawn if the frenzy cadence fires.
Accessing `lobby.players[currentPlayerIndex]` or
`lobby.questions[currentQuestionIndex]` out of bounds throws in JavaScript and
surfaces as the catch-all 500, modelled as `Except.error "Server error"`. -/
def submitAnswer (l : Lobby) (uid userAnswer : String) (store : Store)
    (card : AbilityCard) : Except String (Lobby × Store) :=
  if !l.gameStarted then .error "Game not active or lobby not found"
  else
    match l.players.find? (fun p => p.id == uid) with
    | none => .error "It is not your turn or you are not in this game."
    | some p0 =>
        match l.players.get? l.currentPlayerIndex with
        | none => .error "Server error"
        | some cur =>
            if p0.id ≠ cur.id then .error "It is not your turn or you are not in this game."
            else
              match l.questions.get? l.currentQuestionIndex with
              | none => .error "Server error"
              | some q =>
                  let isCorrect := rawCorrect userAnswer q.a
                  let roster := rosterAfterResolve l.players uid isCorrect
                  let store1 := ledgerStore store uid l.isRanked isCorrect
                  if (humansOf roster).length ≤ 1 then
                    let payout : Int :=
                      100 + (if l.isRanked then 150 else if l.isCustom then 100 else 0)
                    .ok ({ l with players := roster, gameStarted := false },
                         creditWinner store1 roster payout)
                  else
                    let idx1 := (l.currentPlayerIndex + 1) % roster.length
                    let idx2 := skipDead roster idx1 roster.length
                    let nq :=
                      if l.questions.length ≤ l.currentQuestionIndex + 1 then 0
                      else l.currentQuestionIndex + 1
                    let doCycle := p0.kind == PKind.human ||
                      (p0.kind == PKind.bot && !(jsStartsWith l.kind "solo-"))
                    let cycles := if doCycle then l.playerCycles + 1 else l.playerCycles
                    let dealCards := doCycle && l.isFrenzyMode &&
                      cycles % (roster.length * 2) == 0
                    let roster2 := if dealCards then giveCard card roster else roster
                    .ok ({ l with
                           players := roster2, currentPlayerIndex := idx2,
                           currentQuestionIndex := nq, playerCycles := cycles }, store1)

/-- The seven legal lobby types, `lobbySchema.type`'s `enum`; mongoose rejects
any other value when `save()` validates the document. -/
def lobbyTypeEnum : List String :=
  [ "free-for-all-qna", "1v1-fill-in-blanks", "solo-coding-challenge",
    "ranked-free-for-all-qna", "ranked-1v1-fill-in-blanks",
    "custom-qna", "custom-fill-in-blanks" ]

/-- A synthetic bot player as pushed by the create handler (lines 191–204);
unlisted schema fields take their `playerInLobbySchema` defaults. -/
def mkBot (newLobbyId : String) (i : Nat) (initialLives : Int)
    (isFrenzyMode : Bool) (pick : Nat → Nat) : PlayerInLobby :=
  { id := "bot_" ++ newLobbyId ++ "_" ++ toString i, name := "Bot_" ++ toString i,
    isReady := true, kind := .bot, elo := 0, casualPoints := 0,
    lives := initialLives, currentRoundScore := 0, roundCorrectAnswers := 0,
    roundTotalAnswers := 0, cards := getStartingCards isFrenzyMode pick,
    shields := 0, goldenDefenseUsed := false }

/-- The `POST /api/lobbies` handler (lines 130–216).  `user?` is the result of
`User.findById(hostId)`; `newLobbyId` stands for the random readable id;
`pick e` is the random-draw oracle for entity `e` (0 the host, `i ≥ 1` bot `i`).
The handler itself validates nothing about the configuration: the only
rejection of a config is mongoose's schema `enum` check on `type` at
`save()`, which surfaces as the catch-all 500 — `maxPlayers` has no minimum,
so any capacity is persisted as-is.  The bot loop `for (i = 1; i < maxPlayers)`
adds `maxPlayers - 1` bots when that is positive and none otherwise. -/
def createLobby (hostId hostUsername : String) (user? : Option User) (now : Int)
    (cname : String) (maxPlayers : Int) (ltype : String) (isFrenzyMode : Bool)
    (initialLives questionTimer : Int) (newLobbyId : String)
    (pick : Nat → Nat → Nat) : Except String Lobby :=
  match user? with
  | none => .error "User not found"
  | some user =>
      if penalized user now then .error "You are penalized and cannot create a lobby."
      else
        let isRanked := jsStartsWith ltype "ranked-"
        let isCustom := jsStartsWith ltype "custom-"
        let hostPlayer : PlayerInLobby :=
          { id := hostId, name := hostUsername, isReady := isRanked, kind := .human,
            elo := user.elo, casualPoints := user.casualPoints, lives := initialLives,
            currentRoundScore := 0, roundCorrectAnswers := 0, roundTotalAnswers := 0,
            cards := getStartingCards isFrenzyMode (pick 0), shields := 0,
            goldenDefenseUsed := false }
        let bots := (List.range (maxPlayers - 1).toNat).map fun i =>
          mkBot newLobbyId (i + 1) initialLives isFrenzyMode (pick (i + 1))
        let newLobby : Lobby :=
          { lobbyId := newLobbyId, name := cname, kind := ltype, hostId,
            players := hostPlayer :: bots, maxPlayers, gameStarted := false,
            isRanked, isCustom, isFrenzyMode, initialLives, questionTimer,
            playerCycles := 0, currentQuestionIndex := 0, currentPlayerIndex := 0,
            questions := [] }
        if lobbyTypeEnum.contains ltype then .ok newLobby
        else .error "Server error"

/-- The `POST /api/lobbies/:lobbyId/join` handler (lines 221–283) on a loaded
lobby.  Note the order of the guards: the full-or-started rejection (line 238)
is checked *before* the already-a-member early return (line 243). -/
def joinLobby (l : Lobby) (user? : Option User) (uid username : String)
    (now : Int) (pick : Nat → Nat) : Except String Lobby :=
  match user? with
  | none => .error "User not found"
  | some user =>
      if penalized user now then .error "You are penalized and cannot join a lobby."
      else if l.maxPlayers ≤ (l.players.length : Int) || l.gameStarted then
        .error "Lobby is full or game has started"
      else if l.players.any (fun p => p.id == uid) then .ok l
      else
        let playerToAdd : PlayerInLobby :=
          { id := uid, name := username, isReady := l.isRanked, kind := .human,
            elo := user.elo, casualPoints := user.casualPoints,
            lives := l.initialLives, currentRoundScore := 0,
            roundCorrectAnswers := 0, roundTotalAnswers := 0,
            cards := getStartingCards l.isFrenzyMode pick, shields := 0,
            goldenDefenseUsed := false }
        .ok { l with players := l.players ++ [playerToAdd] }

/-- Outcome of a successful leave: the lobby was deleted, or saved in the
given state. -/
inductive LeaveOutcome where
  | deleted
  | left (l : Lobby)
deriving DecidableEq, Repr

/-- The `POST /api/lobbies/:lobbyId/leave` handler (lines 288–332) on a loaded
lobby.  An `error` result is returned before any `save()`/`deleteOne()`, so
the persisted lobby is unchanged in that case. -/
def leaveLobby (l : Lobby) (uid : String) : Except String LeaveOutcome :=
  let remaining := l.players.filter fun p => p.id != uid
  if remaining.length = l.players.length then .error "User not found in lobby"
  else if (humansOf remaining).length = 0 then .ok .deleted
  else if l.hostId = uid then
    match remaining.find? (fun p => p.kind == PKind.human) with
    | some newHost => .ok (.left { l with players := remaining, hostId := newHost.id })
    | none => .ok .deleted
  else .ok (.left { l with players := remaining })

/-- The `POST /api/lobbies/:lobbyId/start` handler (lines 370–439) on a loaded
lobby.  `shuffle` is the oracle for `[...bank].sort(() => Math.random() - 0.5)`
and `pick i` the card-draw oracle for the player at position `i`. -/
def startGame (l : Lobby) (uid : String) (shuffle : List Question → List Question)
    (pick : Nat → Nat → Nat) : Except String Lobby :=
  if l.hostId ≠ uid then .error "Only the host can start the game"
  else if l.players.length < 2 then .error "Need at least 2 players to start"
  else if !l.players.all (fun p => p.isReady) then .error "Not all players are ready"
  else
    let questions :=
      if jsIncludes l.kind "qna" then shuffle originalQuestions
      else if jsIncludes l.kind "fill-in-blanks" then shuffle fillInBlanksQuestions
      else shuffle originalQuestions
    let players := (l.players.enum).map fun (i, p) =>
      { p with lives := l.initialLives, currentRoundScore := 0,
               roundCorrectAnswers := 0, roundTotalAnswers := 0,
               cards := getStartingCards l.isFrenzyMode (pick i),
               shields := 0, goldenDefenseUsed := false }
    .ok { l with
          gameStarted := true, currentQuestionIndex := 0,
          currentPlayerIndex := 0, playerCycles := 0, questions, players }

/-- The `POST /api/users/buy-item` handler (lines 730–760) on a loaded user. -/
def buyItem (u : User) (itemId : String) (itemPrice : Int)
    (itemCategory itemName : String) : Except String User :=
  if u.inventory.contains itemId then .error "You already own this item."
  else if u.tokens < itemPrice then .error "Insufficient tokens."
  else .ok { u with
             tokens := u.tokens - itemPrice,
             inventory := u.inventory ++ [itemId],
             equippedTitle := if itemCategory = "title" then itemName
                              else u.equippedTitle }

/-- What the inactivity-expiry callback did to the lobby the user was in. -/
inductive LobbyOutcome where
  | untouched
  | removedFrom (l : Lobby)
  | deletedLobby
deriving DecidableEq, Repr

/-- `PENALTY_DURATION_MS` in `server.js`. -/
def penaltyDurationMs : Int := 60 * 1000

/-- `MAX_WARNINGS` in `server.js`. -/
def maxWarnings : Nat := 3

/-- The body of the `setTimeout` armed by `resetInactivityTimer`
(`server.js` lines 88–118).  `activeLobby` is the result of
`Lobby.findOne({ 'players.id': userId, gameStarted: true })` at firing time,
and `now` the firing time in milliseconds. -/
def inactivityExpiry (uid : String) (u : User) (activeLobby : Option Lobby)
    (now : Int) : User × LobbyOutcome :=
  let wc := u.warningCount + 1
  if maxWarnings ≤ wc then
    let u' := { u with warningCount := 0, penaltyEndTime := some (now + penaltyDurationMs) }
    match activeLobby with
    | none => (u', .untouched)
    | some l =>
        let remaining := l.players.filter fun p => p.id != uid
        if (humansOf remaining).length = 0 then (u', .deletedLobby)
        else (u', .removedFrom { l with players := remaining })
  else ({ u with warningCount := wc }, .untouched)

/-- A fresh user document with the schema defaults of `models/User.js`. -/
def baseUser : User :=
  { username := "", elo := 0, casualPoints := 0, rankedCorrectAnswers := 0,
    rankedTotalAnswers := 0, casualCorrectAnswers := 0, casualTotalAnswers := 0,
    soloStage := 0, tokens := 0, inventory := [], equippedTitle := "New Rival",
    warningCount := 0, penaltyEndTime := none }

/-- Concrete user for the closed-instance checks. -/
def aliceUser : User :=
  { baseUser with username := "Alice", elo := 100, casualPoints := 40, tokens := 20 }

/-- Concrete user for the closed-instance checks. -/
def bobUser : User :=
  { baseUser with username := "Bob", elo := 50, casualPoints := 10, tokens := 5 }

/-- A player entry with the `playerInLobbySchema` defaults. -/
def basePlayer : PlayerInLobby :=
  { id := "", name := "", isReady := true, kind := .human, elo := 0,
    casualPoints := 0, lives := 3, currentRoundScore := 0,
    roundCorrectAnswers := 0, roundTotalAnswers := 0, cards := [],
    shields := 0, goldenDefenseUsed := false }

/-- Concrete player for the closed-instance checks. -/
def alicePlayer : PlayerInLobby := { basePlayer with id := "alice", name := "Alice" }

/-- Concrete player for the closed-instance checks. -/
def bobPlayer : PlayerInLobby := { basePlayer with id := "bob", name := "Bob" }

/-- Concrete bot player for the closed-instance checks. -/
def botPlayer : PlayerInLobby :=
  { basePlayer with id := "bot_x_1", name := "Bot_1", kind := .bot }

/-- Alice holding one Golden Defense shield. -/
def aliceShielded : PlayerInLobby := { alicePlayer with shields := 1 }

/-- A two-human casual lobby with a game in progress, Alice to answer. -/
def gameLobby : Lobby :=
  { lobbyId := "free_for_all_qna-ab12cd", name := "Room",
    kind := "free-for-all-qna", hostId := "alice",
    players := [alicePlayer, bobPlayer], maxPlayers := 2, gameStarted := true,
    isRanked := false, isCustom := false, isFrenzyMode := false,
    initialLives := 3, questionTimer := 30, playerCycles := 0,
    currentQuestionIndex := 0, currentPlayerIndex := 0,
    questions := originalQuestions }

/-- `gameLobby` with Alice holding a shield. -/
def gameLobbyShield : Lobby := { gameLobby with players := [aliceShielded, bobPlayer] }

/-- A lobby whose only human is Alice (one bot opponent): any resolved answer
ends the game. -/
def soloHumanLobby : Lobby := { gameLobby with players := [alicePlayer, botPlayer] }

/-- A lobby at capacity that has not started, with Alice a member: the state of
any lobby right after creation (the create handler fills it with bots). -/
def fullLobby : Lobby :=
  { gameLobby with gameStarted := false, players := [alicePlayer, botPlayer] }

/-- A below-capacity lobby that has not started, with Alice a member. -/
def openLobby : Lobby :=
  { gameLobby with
    gameStarted := false, players := [alicePlayer, botPlayer], maxPlayers := 3 }

/-- The user collection for the closed-instance checks. -/
def sampleStore : Store :=
  fun i => if i = "alice" then some aliceUser
           else if i = "bob" then some bobUser else none

/-- Expected user state after one inactivity warning. -/
def warnedOnce : User := { baseUser with warningCount := 1 }

/-- Expected user state after two inactivity warnings. -/
def warnedTwice : User := { baseUser with warningCount := 2 }

/-- Expected user state after the third expiry at time 2000: counter reset,
60-second penalty. -/
def penalizedUser : User :=
  { baseUser with warningCount := 0, penaltyEndTime := some (2000 + penaltyDurationMs) }

/-! ## Helper lemmas -/

theorem resolvePlayer_id (c : Bool) (p : PlayerInLobby) :
    (resolvePlayer c p).id = p.id := by
  cases c <;> by_cases h : 0 < p.shields <;> simp [resolvePlayer, h]

theorem resolvePlayer_kind (c : Bool) (p : PlayerInLobby) :
    (resolvePlayer c p).kind = p.kind := by
  cases c <;> by_cases h : 0 < p.shields <;> simp [resolvePlayer, h]

theorem resolvePlayer_lives_lb (c : Bool) (p : PlayerInLobby) :
    p.lives - 1 ≤ (resolvePlayer c p).lives := by
  cases c <;> by_cases h : 0 < p.shields <;> simp [resolvePlayer, h]

theorem getStartingCards_length (f : Bool) (pick : Nat → Nat) :
    (getStartingCards f pick).length = if f then 3 else 0 := by
  cases f <;> simp [getStartingCards]

/-- Below the warning maximum, an expiry only increments the counter. -/
theorem inactivityExpiry_warn (uid : String) (u : User) (lob : Option Lobby)
    (now : Int) (h : ¬ maxWarnings ≤ u.warningCount + 1) :
    inactivityExpiry uid u lob now =
      ({ u with warningCount := u.warningCount + 1 }, .untouched) := by
  unfold inactivityExpiry
  rw [if_neg h]

/-- At the warning maximum, an expiry resets the counter, sets the penalty and
cascades into the active lobby. -/
theorem inactivityExpiry_penalize (uid : String) (u : User) (lob : Option Lobby)
    (now : Int) (h : maxWarnings ≤ u.warningCount + 1) :
    inactivityExpiry uid u lob now =
      ({ u with
         warningCount := 0,
         penaltyEndTime := some (now + penaltyDurationMs) },
       match lob with
       | none => .untouched
       | some L =>
           if (humansOf (L.players.filter (fun p => p.id != uid))).length = 0 then
             .deletedLobby
           else
             .removedFrom { L with players := L.players.filter (fun p => p.id != uid) }) := by
  unfold inactivityExpiry
  rw [if_pos h]
  cases lob with
  | none => rfl
  | some L =>
      by_cases hz : (humansOf (L.players.filter (fun p => p.id != uid))).length = 0 <;>
        simp [hz]

/-- The shield interception case: with a raw-incorrect answer and at least one
shield, exactly one shield is consumed, lives are untouched, and the turn is
scored as (effectively) correct. -/
theorem resolvePlayer_shielded (p : PlayerInLobby) (hsh : 0 < p.shields) :
    (resolvePlayer false p).shields = p.shields - 1 ∧
    (resolvePlayer false p).lives = p.lives ∧
    (resolvePlayer false p).roundCorrectAnswers = p.roundCorrectAnswers + 1 ∧
    (resolvePlayer false p).roundTotalAnswers = p.roundTotalAnswers + 1 ∧
    (resolvePlayer false p).currentRoundScore = p.currentRoundScore + 100 := by
  unfold resolvePlayer
  simp [hsh]

theorem length_updateFirst (uid : String) (f : PlayerInLobby → PlayerInLobby)
    (ps : List PlayerInLobby) : (updateFirst uid f ps).length = ps.length := by
  induction ps with
  | nil => rfl
  | cons p ps ih =>
      unfold updateFirst
      by_cases h : p.id = uid <;> simp [h, ih]

/-- Every member of `updateFirst uid f ps` is an untouched original member, or
the image under `f` of the first player with id `uid`. -/
theorem mem_updateFirst {uid : String} {f : PlayerInLobby → PlayerInLobby}
    {ps : List PlayerInLobby} {p' : PlayerInLobby}
    (h : p' ∈ updateFirst uid f ps) :
    p' ∈ ps ∨ ∃ p0, ps.find? (fun p => p.id == uid) = some p0 ∧ p' = f p0 := by
  induction ps with
  | nil => simp [updateFirst] at h
  | cons p ps ih =>
      by_cases hid : p.id = uid
      · rw [updateFirst, if_pos hid] at h
        rcases List.mem_cons.mp h with h | h
        · exact Or.inr ⟨p, by simp [List.find?_cons_of_pos, hid], h⟩
        · exact Or.inl (List.mem_cons_of_mem _ h)
      · rw [updateFirst, if_neg hid] at h
        rcases List.mem_cons.mp h with h | h
        · exact Or.inl (h ▸ List.mem_cons_self _ _)
        · rcases ih h with h' | ⟨p0, hf, he⟩
          · exact Or.inl (List.mem_cons_of_mem _ h')
          · refine Or.inr ⟨p0, ?_, he⟩
            rw [List.find?_cons_of_neg, hf]
            simp [hid]

/-- The image of the first player with id `uid` is a member of the updated
roster. -/
theorem updateFirst_mem_of_find? {uid : String} {f : PlayerInLobby → PlayerInLobby}
    {ps : List PlayerInLobby} {p0 : PlayerInLobby}
    (h : ps.find? (fun p => p.id == uid) = some p0) :
    f p0 ∈ updateFirst uid f ps := by
  induction ps with
  | nil => simp at h
  | cons p ps ih =>
      by_cases hid : p.id = uid
      · rw [List.find?_cons_of_pos _ (by simp [hid])] at h
        rw [updateFirst, if_pos hid]
        injection h with h
        exact h ▸ List.mem_cons_self _ _
      · rw [List.find?_cons_of_neg _ (by simp [hid])] at h
        rw [updateFirst, if_neg hid]
        exact List.mem_cons_of_mem _ (ih h)

/-- An answer that is resolved while every roster player is alive leaves every
roster player alive: the in-turn player is either still alive or filtered out,
all others are untouched. -/
theorem rosterAfterResolve_alive {ps : List PlayerInLobby} {uid : String} {c : Bool}
    (h : ∀ p ∈ ps, 0 < p.lives) :
    ∀ p' ∈ rosterAfterResolve ps uid c, 0 < p'.lives := by
  intro p' hp'
  unfold rosterAfterResolve at hp'
  cases hf : ps.find? (fun p => p.id == uid) with
  | none => simp only [hf] at hp'; exact h p' hp'
  | some p0 =>
      simp only [hf] at hp'
      have hid0 : p0.id = uid := by simpa using List.find?_some hf
      by_cases hd : (resolvePlayer c p0).lives ≤ 0
      · rw [if_pos hd] at hp'
        obtain ⟨hmem, hne⟩ := List.mem_filter.mp hp'
        rcases mem_updateFirst hmem with horig | ⟨q0, hfq, he⟩
        · exact h p' horig
        · rw [hf] at hfq
          injection hfq with hq
          subst hq
          have : p'.id = uid := by rw [he, resolvePlayer_id, hid0]
          simp [this] at hne
      · rw [if_neg hd] at hp'
        rcases mem_updateFirst hp' with horig | ⟨q0, hfq, he⟩
        · exact h p' horig
        · rw [hf] at hfq
          injection hfq with hq
          subst hq
          rw [he]
          omega

theorem length_rosterAfterResolve_filter (ps : List PlayerInLobby) (uid : String)
    (c : Bool) :
    (humansOf (rosterAfterResolve ps uid c)).length ≤ (rosterAfterResolve ps uid c).length := by
  exact List.length_filter_le _ _

/-- A live player at the probed index makes the defensive skip loop a no-op. -/
theorem skipDead_eq_of_alive {ps : List PlayerInLobby} {idx : Nat} {p : PlayerInLobby}
    (fuel : Nat) (hget : ps.get? idx = some p) (halive : 0 < p.lives) :
    skipDead ps idx fuel = idx := by
  cases fuel with
  | zero => rfl
  | succ n =>
      unfold skipDead
      rw [hget]
      simp only [if_neg (by omega : ¬ p.lives ≤ 0)]

theorem get?_giveCard (c : AbilityCard) (ps : List PlayerInLobby) (i : Nat) :
    (giveCard c ps).get? i = (ps.get? i).map fun p => { p with cards := p.cards ++ [c] } := by
  unfold giveCard
  exact List.get?_map _ _ _

theorem mem_giveCard {c : AbilityCard} {ps : List PlayerInLobby} {p' : PlayerInLobby}
    (h : p' ∈ giveCard c ps) :
    ∃ p ∈ ps, p' = { p with cards := p.cards ++ [c] } := by
  unfold giveCard at h
  obtain ⟨p, hp, he⟩ := List.mem_map.mp h
  exact ⟨p, hp, he.symm⟩

theorem giveCard_length (c : AbilityCard) (ps : List PlayerInLobby) :
    (giveCard c ps).length = ps.length := by
  unfold giveCard
  exact List.length_map _ _

/-- The winner credit changes at most the winner's `tokens`; any user the
store maps reads back with `elo` and `casualPoints` intact. -/
theorem creditWinner_apply (store : Store) (ps : List PlayerInLobby) (payout : Int)
    (uid : String) :
    (creditWinner store ps payout) uid = store uid ∨
    ∃ v, store uid = some v ∧
      (creditWinner store ps payout) uid = some { v with tokens := v.tokens + payout } := by
  cases hfind : ps.find? (fun p => p.kind == PKind.human) with
  | none => exact Or.inl (by simp [creditWinner, hfind])
  | some w =>
      cases hw : store w.id with
      | none => exact Or.inl (by simp [creditWinner, hfind, hw])
      | some wu =>
          by_cases he : uid = w.id
          · subst he
            exact Or.inr ⟨wu, hw, by simp [creditWinner, hfind, hw, updStore]⟩
          · exact Or.inl (by simp [creditWinner, hfind, hw, updStore, he])

/-- With all guards passing, the answer handler reduces to its resolution
core: roster resolution, ledger update, then either the game-end branch or the
turn/question/cadence advance. -/
theorem submitAnswer_resolved (l : Lobby) (uid ua : String) (store : Store)
    (card : AbilityCard) (p0 cur : PlayerInLobby) (q : Question)
    (hgs : l.gameStarted = true)
    (hfind : l.players.find? (fun p => p.id == uid) = some p0)
    (hcur : l.players.get? l.currentPlayerIndex = some cur)
    (hid : p0.id = cur.id)
    (hq : l.questions.get? l.currentQuestionIndex = some q) :
    submitAnswer l uid ua store card =
      (if (humansOf (rosterAfterResolve l.players uid (rawCorrect ua q.a))).length ≤ 1 then
        .ok ({ l with
               players := rosterAfterResolve l.players uid (rawCorrect ua q.a),
               gameStarted := false },
             creditWinner (ledgerStore store uid l.isRanked (rawCorrect ua q.a))
               (rosterAfterResolve l.players uid (rawCorrect ua q.a))
               (100 + (if l.isRanked then 150 else if l.isCustom then 100 else 0)))
      else
        .ok ({ l with
               players :=
                 (if (p0.kind == PKind.human ||
                      (p0.kind == PKind.bot && !(jsStartsWith l.kind "solo-"))) &&
                     l.isFrenzyMode &&
                     ((if p0.kind == PKind.human ||
                          (p0.kind == PKind.bot && !(jsStartsWith l.kind "solo-")) then
                         l.playerCycles + 1
                       else l.playerCycles) %
                       ((rosterAfterResolve l.players uid (rawCorrect ua q.a)).length * 2) == 0) then
                    giveCard card (rosterAfterResolve l.players uid (rawCorrect ua q.a))
                  else rosterAfterResolve l.players uid (rawCorrect ua q.a)),
               currentPlayerIndex :=
                 skipDead (rosterAfterResolve l.players uid (rawCorrect ua q.a))
                   ((l.currentPlayerIndex + 1) %
                     (rosterAfterResolve l.players uid (rawCorrect ua q.a)).length)
                   (rosterAfterResolve l.players uid (rawCorrect ua q.a)).length,
               currentQuestionIndex :=
                 (if l.questions.length ≤ l.currentQuestionIndex + 1 then 0
                  else l.currentQuestionIndex + 1),
               playerCycles :=
                 (if p0.kind == PKind.human ||
                     (p0.kind == PKind.bot && !(jsStartsWith l.kind "solo-")) then
                    l.playerCycles + 1
                  else l.playerCycles) },
             ledgerStore store uid l.isRanked (rawCorrect ua q.a))) := by
  unfold submitAnswer
  simp only [hgs, Bool.not_true, Bool.false_eq_true, if_false, hfind, hcur, hq]
  rw [if_neg (not_not_intro hid)]

/-- When the answering user's document exists, the ledger write reads back as
the updated document. -/
theorem ledgerStore_self {store : Store} {uid : String} {r c : Bool} {u : User}
    (hu : store uid = some u) :
    ledgerStore store uid r c uid = some (applyLedger r c u) := by
  unfold ledgerStore
  rw [hu]
  simp [updStore]

/-- The ledger update for a raw-incorrect answer: rating −10 floored at 0 in
ranked play, casual points −5 floored at 0 otherwise, the other currency
untouched. -/
theorem applyLedger_incorrect (r : Bool) (u : User) :
    (applyLedger r false u).elo =
      (if r then (if u.elo - 10 < 0 then 0 else u.elo - 10) else u.elo) ∧
    (applyLedger r false u).casualPoints =
      (if r then u.casualPoints
       else (if u.casualPoints - 5 < 0 then 0 else u.casualPoints - 5)) := by
  cases r with
  | true =>
      by_cases h : u.elo - 10 < 0 <;> simp [applyLedger, h]
  | false =>
      by_cases h : u.casualPoints - 5 < 0 <;> simp [applyLedger, h]

/-- The elimination filter is skipped when the resolved player survives. -/
theorem rosterAfterResolve_of_alive {ps : List PlayerInLobby} {uid : String}
    {c : Bool} {p0 : PlayerInLobby}
    (hfind : ps.find? (fun p => p.id == uid) = some p0)
    (hlv : ¬ (resolvePlayer c p0).lives ≤ 0) :
    rosterAfterResolve ps uid c = updateFirst uid (resolvePlayer c) ps := by
  unfold rosterAfterResolve
  simp only [hfind]
  rw [if_neg hlv]

/-! ## C1 — raw correctness of a submitted answer -/

/-- **C1** counterexample: `" 4"` differs from the canonical answer `"4"` only
by surrounding whitespace; the spec's trimmed comparison accepts it, but the
comparison the handler performs (line 461, no trim) judges it raw-incorrect,
and an unshielded player loses a life on it. -/
theorem answer_trim_cex :
    specRawCorrect " 4" "4" = true ∧ rawCorrect " 4" "4" = false ∧
    (resolvePlayer (rawCorrect " 4" "4") alicePlayer).lives =
      alicePlayer.lives - 1 := by decide

/-- **C1** (amended): raw correctness is the case-insensitive equality of the
*untrimmed* submitted answer with the canonical answer: for a player holding no
shield, the resolution step leaves their lives unchanged exactly when the
lowercased submitted answer equals the lowercased canonical answer, so answers
differing only in letter case are judged raw-correct while answers differing
by surrounding whitespace are not. -/
theorem answer_correctness_untrimmed (ua ca : String) (p : PlayerInLobby)
    (hsh : p.shields ≤ 0) :
    (resolvePlayer (rawCorrect ua ca) p).lives = p.lives ↔
      jsToLowerCase ua = jsToLowerCase ca := by
  have hs : ¬ 0 < p.shields := by omega
  unfold rawCorrect
  cases h : (jsToLowerCase ua == jsToLowerCase ca) with
  | true =>
      have he : jsToLowerCase ua = jsToLowerCase ca := beq_iff_eq.mp h
      simp [resolvePlayer, hs, he]
  | false =>
      have hne : ¬ jsToLowerCase ua = jsToLowerCase ca := by
        intro he
        rw [he] at h
        simp at h
      simp [resolvePlayer, hs, hne]

/-- Closed instance for `answer_correctness_untrimmed`. -/
theorem answer_correctness_untrimmed_witness :
    alicePlayer.shields ≤ 0 ∧
    ((resolvePlayer (rawCorrect "CONST" "const") alicePlayer).lives =
        alicePlayer.lives ↔
      jsToLowerCase "CONST" = jsToLowerCase "const") :=
  ⟨by decide, answer_correctness_untrimmed "CONST" "const" alicePlayer (by decide)⟩

/-! ## C2 — repeat join -/

/-- **C2** counterexample: `fullLobby` is at capacity (the state every lobby is
in right after creation, since the create handler fills it with bots) and Alice
is already a member, yet her repeat join is rejected instead of returning the
lobby: the capacity/started check (line 238) runs before the membership check
(line 243). -/
theorem join_repeat_member_cex :
    fullLobby.players.any (fun p => p.id == "alice") = true ∧
    joinLobby fullLobby (some aliceUser) "alice" "Alice" 0 (fun _ => 0) =
      .error "Lobby is full or game has started" := by decide

/-- **C2** (amended): a repeat join by an existing member is idempotent (returns
the lobby unchanged) only when the lobby is below capacity and the game has not
started; when it is full or started the same member's join is rejected with the
full-or-started error, because that check precedes the membership check. -/
theorem join_repeat_member (l : Lobby) (u : User) (uid username : String)
    (now : Int) (pick : Nat → Nat)
    (hpen : penalized u now = false)
    (hmem : l.players.any (fun p => p.id == uid) = true) :
    (((l.players.length : Int) < l.maxPlayers ∧ l.gameStarted = false) →
      joinLobby l (some u) uid username now pick = .ok l)
    ∧ ((l.maxPlayers ≤ (l.players.length : Int) ∨ l.gameStarted = true) →
      joinLobby l (some u) uid username now pick =
        .error "Lobby is full or game has started") := by
  constructor
  · rintro ⟨hcap, hgs⟩
    unfold joinLobby
    simp [hpen, hmem, hgs, not_le.mpr hcap]
  · intro hful
    unfold joinLobby
    rcases hful with hle | hgs
    · simp [hpen, hle]
    · simp [hpen, hgs]

/-- Closed instance for `join_repeat_member`. -/
theorem join_repeat_member_witness :
    penalized aliceUser 0 = false ∧
    openLobby.players.any (fun p => p.id == "alice") = true ∧
    ((((openLobby.players.length : Int) < openLobby.maxPlayers ∧
          openLobby.gameStarted = false) →
        joinLobby openLobby (some aliceUser) "alice" "Alice" 0 (fun _ => 0) =
          .ok openLobby)
      ∧ ((openLobby.maxPlayers ≤ (openLobby.players.length : Int) ∨
          openLobby.gameStarted = true) →
        joinLobby openLobby (some aliceUser) "alice" "Alice" 0 (fun _ => 0) =
          .error "Lobby is full or game has started")) :=
  ⟨by decide, by decide,
    join_repeat_member openLobby aliceUser "alice" "Alice" 0 (fun _ => 0)
      (by decide) (by decide)⟩

/-! ## C6 — start-of-game reset -/

/-- **C6**: a successful start sets the started flag, zeroes the cycle counter
and the question/player indices, and resets every player: lives to the lobby's
initial-lives setting, round score and round correct/total counters to 0,
shields to 0, the one-shot Golden Defense flag cleared, and a freshly dealt
hand of exactly 3 cards in frenzy mode and 0 otherwise. -/
theorem start_resets_players (l : Lobby) (uid : String)
    (shuffle : List Question → List Question) (pick : Nat → Nat → Nat)
    (l' : Lobby) (hok : startGame l uid shuffle pick = .ok l') :
    l'.gameStarted = true ∧ l'.playerCycles = 0 ∧ l'.currentQuestionIndex = 0 ∧
    l'.currentPlayerIndex = 0 ∧
    ∀ p ∈ l'.players, p.lives = l.initialLives ∧ p.currentRoundScore = 0 ∧
      p.roundCorrectAnswers = 0 ∧ p.roundTotalAnswers = 0 ∧ p.shields = 0 ∧
      p.goldenDefenseUsed = false ∧
      p.cards.length = (if l.isFrenzyMode then 3 else 0) := by
  unfold startGame at hok
  split at hok
  · exact absurd hok (by simp)
  · split at hok
    · exact absurd hok (by simp)
    · split at hok
      · exact absurd hok (by simp)
      · injection hok with hok
        subst hok
        refine ⟨rfl, rfl, rfl, rfl, ?_⟩
        intro p hp
        simp only [List.mem_map] at hp
        obtain ⟨⟨i, p0⟩, _, he⟩ := hp
        subst he
        refine ⟨rfl, rfl, rfl, rfl, rfl, rfl, ?_⟩
        exact getStartingCards_length l.isFrenzyMode (pick i)

/-- Closed instance for `start_resets_players`. -/
theorem start_resets_players_witness :
    ∃ l', startGame fullLobby "alice" id (fun _ _ => 0) = .ok l' ∧
      (l'.gameStarted = true ∧ l'.playerCycles = 0 ∧
       l'.currentQuestionIndex = 0 ∧ l'.currentPlayerIndex = 0 ∧
       ∀ p ∈ l'.players, p.lives = fullLobby.initialLives ∧
         p.currentRoundScore = 0 ∧ p.roundCorrectAnswers = 0 ∧
         p.roundTotalAnswers = 0 ∧ p.shields = 0 ∧ p.goldenDefenseUsed = false ∧
         p.cards.length = (if fullLobby.isFrenzyMode then 3 else 0)) :=
  ⟨_, rfl, start_resets_players fullLobby "alice" id (fun _ _ => 0) _ rfl⟩

/-! ## C7 — lobby-creation validation -/

/-- **C7** counterexample: capacity 0 with a legal mode is accepted by the
create handler: the claim requires `capacity < 1` to fail with a validation
error and no lobby, but a lobby is persisted. -/
theorem create_capacity_cex :
    (createLobby "host1" "Host" (some baseUser) 0 "Room" 0 "custom-qna" false 3
        30 "custom_qna-ab12cd" (fun _ _ => 0)).isOk = true := by decide

/-- **C7** (amended): creation validates only the mode: an unknown mode fails
at `save()` against the schema enum (surfacing as the catch-all server error)
with no lobby persisted, while capacity is not validated at all — any capacity,
including capacity < 1, is accepted and yields a lobby with the host plus
`max(capacity − 1, 0)` bots (so exactly the host when capacity < 1). -/
theorem create_checks_mode_not_capacity (hostId hostUsername : String)
    (u : User) (now : Int) (cname : String) (maxPlayers : Int) (ltype : String)
    (frenzy : Bool) (lives timer : Int) (nid : String) (pick : Nat → Nat → Nat)
    (hpen : penalized u now = false) :
    (lobbyTypeEnum.contains ltype = false →
      createLobby hostId hostUsername (some u) now cname maxPlayers ltype frenzy
        lives timer nid pick = .error "Server error")
    ∧ (lobbyTypeEnum.contains ltype = true →
      ∃ l', createLobby hostId hostUsername (some u) now cname maxPlayers ltype
          frenzy lives timer nid pick = .ok l' ∧
        l'.players.length = 1 + (maxPlayers - 1).toNat ∧
        (maxPlayers < 1 → l'.players.length = 1) ∧
        l'.maxPlayers = maxPlayers ∧ l'.gameStarted = false) := by
  constructor
  · intro hc
    unfold createLobby
    simp only [hpen, Bool.false_eq_true, if_false, hc]
  · intro hc
    unfold createLobby
    simp only [hpen, Bool.false_eq_true, if_false, hc, if_true]
    refine ⟨_, rfl, ?_, ?_, rfl, rfl⟩
    · simp
      omega
    · intro hlt
      simp
      omega

/-- Closed instance for `create_checks_mode_not_capacity`. -/
theorem create_checks_mode_not_capacity_witness :
    penalized baseUser 0 = false ∧
    ((lobbyTypeEnum.contains "nonsense-mode" = false →
      createLobby "host1" "Host" (some baseUser) 0 "Room" 0 "nonsense-mode"
        false 3 30 "nonsense_mode-ab12cd" (fun _ _ => 0) = .error "Server error")
    ∧ (lobbyTypeEnum.contains "nonsense-mode" = true →
      ∃ l', createLobby "host1" "Host" (some baseUser) 0 "Room" 0 "nonsense-mode"
          false 3 30 "nonsense_mode-ab12cd" (fun _ _ => 0) = .ok l' ∧
        l'.players.length = 1 + ((0 : Int) - 1).toNat ∧
        ((0 : Int) < 1 → l'.players.length = 1) ∧
        l'.maxPlayers = 0 ∧ l'.gameStarted = false)) :=
  ⟨by decide,
    create_checks_mode_not_capacity "host1" "Host" baseUser 0 "Room" 0
      "nonsense-mode" false 3 30 "nonsense_mode-ab12cd" (fun _ _ => 0) (by decide)⟩

/-! ## C8 — inactivity escalation -/


/-- **C8**: three consecutive inactivity expiries starting from a clean record:
the first two firings only increment the warning counter (1, then 2) and issue
a warning; the third resets the counter to 0, sets the penalty expiry 60
seconds after that firing, and removes the user from their in-progress lobby,
the lobby being deleted exactly when no human player remains in it. -/
theorem inactivity_three_strikes (uid : String) (u u1 u2 u3 : User)
    (lob1 lob2 lob3 : Option Lobby) (o1 o2 o3 : LobbyOutcome) (t1 t2 t3 : Int)
    (h0 : u.warningCount = 0)
    (h1 : inactivityExpiry uid u lob1 t1 = (u1, o1))
    (h2 : inactivityExpiry uid u1 lob2 t2 = (u2, o2))
    (h3 : inactivityExpiry uid u2 lob3 t3 = (u3, o3)) :
    u1.warningCount = 1 ∧ o1 = .untouched ∧
    u1.penaltyEndTime = u.penaltyEndTime ∧
    u2.warningCount = 2 ∧ o2 = .untouched ∧
    u2.penaltyEndTime = u.penaltyEndTime ∧
    u3.warningCount = 0 ∧ u3.penaltyEndTime = some (t3 + penaltyDurationMs) ∧
    ∀ L, lob3 = some L →
      ((humansOf (L.players.filter (fun p => p.id != uid))).length = 0 →
        o3 = .deletedLobby) ∧
      (0 < (humansOf (L.players.filter (fun p => p.id != uid))).length →
        o3 = .removedFrom { L with players := L.players.filter (fun p => p.id != uid) }) := by
  rw [inactivityExpiry_warn _ _ _ _ (by simp [h0, maxWarnings])] at h1
  injection h1 with h1u h1o
  subst h1u
  rw [inactivityExpiry_warn _ _ _ _ (by simp [h0, maxWarnings])] at h2
  injection h2 with h2u h2o
  subst h2u
  rw [inactivityExpiry_penalize _ _ _ _ (by simp [h0, maxWarnings])] at h3
  injection h3 with h3u h3o
  subst h3u
  refine ⟨by simp [h0], h1o.symm, rfl, by simp [h0], h2o.symm, rfl, rfl, rfl, ?_⟩
  intro L hL
  subst hL
  dsimp only at h3o
  constructor
  · intro hz
    rw [if_pos hz] at h3o
    exact h3o.symm
  · intro hpos
    rw [if_neg (by omega)] at h3o
    exact h3o.symm
/-- Closed instance for `inactivity_three_strikes`. -/
theorem inactivity_three_strikes_witness :
    baseUser.warningCount = 0 ∧
    inactivityExpiry "alice" baseUser none 0 = (warnedOnce, .untouched) ∧
    inactivityExpiry "alice" warnedOnce none 1000 = (warnedTwice, .untouched) ∧
    inactivityExpiry "alice" warnedTwice (some gameLobby) 2000 =
      (penalizedUser, .removedFrom
        { gameLobby with
          players := gameLobby.players.filter (fun p => p.id != "alice") }) ∧
    (warnedOnce.warningCount = 1 ∧
      (LobbyOutcome.untouched = .untouched) ∧
      warnedOnce.penaltyEndTime = baseUser.penaltyEndTime ∧
      warnedTwice.warningCount = 2 ∧
      (LobbyOutcome.untouched = .untouched) ∧
      warnedTwice.penaltyEndTime = baseUser.penaltyEndTime ∧
      penalizedUser.warningCount = 0 ∧
      penalizedUser.penaltyEndTime = some (2000 + penaltyDurationMs) ∧
      ∀ L, (some gameLobby : Option Lobby) = some L →
        ((humansOf (L.players.filter (fun p => p.id != "alice"))).length = 0 →
          (LobbyOutcome.removedFrom
            { gameLobby with
              players := gameLobby.players.filter (fun p => p.id != "alice") }) =
            .deletedLobby) ∧
        (0 < (humansOf (L.players.filter (fun p => p.id != "alice"))).length →
          (LobbyOutcome.removedFrom
            { gameLobby with
              players := gameLobby.players.filter (fun p => p.id != "alice") }) =
            .removedFrom { L with players := L.players.filter (fun p => p.id != "alice") })) :=
  ⟨rfl, by decide, by decide, by decide,
    inactivity_three_strikes "alice" baseUser warnedOnce warnedTwice penalizedUser
      none none (some gameLobby) .untouched .untouched
      (.removedFrom
        { gameLobby with
          players := gameLobby.players.filter (fun p => p.id != "alice") })
      0 1000 2000 rfl (by decide) (by decide) (by decide)⟩

/-! ## C9 — leave by a non-member -/

/-- **C9**: a leave request by a user who is not a member of the lobby fails
with the "User not found in lobby" error; the handler returns before any
`save()` or `deleteOne()`, so the persisted lobby — its existence, host and
player list — is unchanged. -/
theorem leave_nonmember_rejected (l : Lobby) (uid : String)
    (hnm : ∀ p ∈ l.players, p.id ≠ uid) :
    leaveLobby l uid = .error "User not found in lobby" := by
  unfold leaveLobby
  have hfix : l.players.filter (fun p => p.id != uid) = l.players :=
    List.filter_eq_self.mpr (fun p hp => by simp [hnm p hp])
  simp [hfix]

/-- Closed instance for `leave_nonmember_rejected`. -/
theorem leave_nonmember_rejected_witness :
    (∀ p ∈ gameLobby.players, p.id ≠ "mallory") ∧
    leaveLobby gameLobby "mallory" = .error "User not found in lobby" :=
  ⟨by decide, leave_nonmember_rejected gameLobby "mallory" (by decide)⟩

/-! ## C10 — shop purchase invariants -/

/-- **C10**: buy-item preserves a non-negative balance and a duplicate-free
inventory: an already-owned item or an insufficient balance is rejected with no
state change, and a successful purchase deducts exactly the price (leaving the
balance non-negative) and appends the item id exactly once. -/
theorem buy_item_invariants (u : User) (itemId : String) (itemPrice : Int)
    (itemCategory itemName : String) (htok : 0 ≤ u.tokens)
    (hnd : u.inventory.Nodup) :
    (u.inventory.contains itemId = true →
      buyItem u itemId itemPrice itemCategory itemName =
        .error "You already own this item.")
    ∧ (u.inventory.contains itemId = false → u.tokens < itemPrice →
      buyItem u itemId itemPrice itemCategory itemName =
        .error "Insufficient tokens.")
    ∧ (∀ u', buyItem u itemId itemPrice itemCategory itemName = .ok u' →
        u'.tokens = u.tokens - itemPrice ∧ 0 ≤ u'.tokens ∧
        u'.inventory = u.inventory ++ [itemId] ∧ u'.inventory.Nodup ∧
        u'.inventory.count itemId = 1) := by
  refine ⟨?_, ?_, ?_⟩
  · intro hc
    have hmem : itemId ∈ u.inventory := by simpa using hc
    simp [buyItem, hmem]
  · intro hc hlt
    have hnmem : itemId ∉ u.inventory := by simpa using hc
    simp [buyItem, hnmem, hlt]
  · intro u' hok
    unfold buyItem at hok
    by_cases hmem : itemId ∈ u.inventory
    · simp [hmem] at hok
    · rw [if_neg (by simpa using hmem)] at hok
      by_cases hlt : u.tokens < itemPrice
      · simp [hlt] at hok
      · simp only [if_neg hlt] at hok
        injection hok with hok
        subst hok
        have hnotmem : itemId ∉ u.inventory := hmem
        refine ⟨rfl, by simp; omega, rfl, ?_, ?_⟩
        · rw [List.nodup_append]
          refine ⟨hnd, List.nodup_singleton _, ?_⟩
          intro a ha hb
          simp at hb
          exact hnotmem (hb ▸ ha)
        · rw [List.count_append]
          rw [List.count_eq_zero.mpr hnotmem]
          simp

/-- Closed instance for `buy_item_invariants`. -/
theorem buy_item_invariants_witness :
    0 ≤ aliceUser.tokens ∧ aliceUser.inventory.Nodup ∧
    ((aliceUser.inventory.contains "item_hat" = true →
      buyItem aliceUser "item_hat" 15 "title" "Fancy Hat" =
        .error "You already own this item.")
    ∧ (aliceUser.inventory.contains "item_hat" = false →
        aliceUser.tokens < 15 →
      buyItem aliceUser "item_hat" 15 "title" "Fancy Hat" =
        .error "Insufficient tokens.")
    ∧ (∀ u', buyItem aliceUser "item_hat" 15 "title" "Fancy Hat" = .ok u' →
        u'.tokens = aliceUser.tokens - 15 ∧ 0 ≤ u'.tokens ∧
        u'.inventory = aliceUser.inventory ++ ["item_hat"] ∧
        u'.inventory.Nodup ∧ u'.inventory.count "item_hat" = 1)) :=
  ⟨by decide, by decide,
    buy_item_invariants aliceUser "item_hat" 15 "title" "Fancy Hat"
      (by decide) (by decide)⟩

/-! ## C4 — shield interception with raw-keyed ledger -/

/-- **C4**: when the current player answers raw-incorrectly while holding at
least one shield, exactly one shield is consumed and their lives are unchanged
(they survive in the roster), while the durable ledger is still charged by raw
correctness: rating −10 floored at 0 in a ranked lobby, with casual points
untouched; casual points −5 floored at 0 otherwise, with the rating
untouched. -/
theorem shield_blocks_life_not_ledger (l : Lobby) (uid ua : String)
    (store : Store) (card : AbilityCard) (p0 cur : PlayerInLobby) (q : Question)
    (u : User)
    (hgs : l.gameStarted = true)
    (hfind : l.players.find? (fun p => p.id == uid) = some p0)
    (hcur : l.players.get? l.currentPlayerIndex = some cur)
    (hid : p0.id = cur.id)
    (hq : l.questions.get? l.currentQuestionIndex = some q)
    (hraw : rawCorrect ua q.a = false)
    (hsh : 0 < p0.shields) (hlv : 0 < p0.lives)
    (hu : store uid = some u) :
    ∃ l' store', submitAnswer l uid ua store card = .ok (l', store') ∧
      (∃ p' ∈ l'.players, p'.id = p0.id ∧ p'.shields = p0.shields - 1 ∧
        p'.lives = p0.lives) ∧
      (∃ u', store' uid = some u' ∧
        (l.isRanked = true →
          u'.elo = (if u.elo - 10 < 0 then 0 else u.elo - 10) ∧
          u'.casualPoints = u.casualPoints) ∧
        (l.isRanked = false →
          u'.casualPoints =
            (if u.casualPoints - 5 < 0 then 0 else u.casualPoints - 5) ∧
          u'.elo = u.elo)) := by
  have hrun := submitAnswer_resolved l uid ua store card p0 cur q hgs hfind hcur hid hq
  rw [hraw] at hrun
  obtain ⟨hsh', hlv', _, _, _⟩ := resolvePlayer_shielded p0 hsh
  have hros : rosterAfterResolve l.players uid false =
      updateFirst uid (resolvePlayer false) l.players :=
    rosterAfterResolve_of_alive hfind (by rw [hlv']; omega)
  rw [hros] at hrun
  have hp1 : resolvePlayer false p0 ∈ updateFirst uid (resolvePlayer false) l.players :=
    updateFirst_mem_of_find? hfind
  have hid1 : (resolvePlayer false p0).id = p0.id := resolvePlayer_id false p0
  have hled : ledgerStore store uid l.isRanked false uid =
      some (applyLedger l.isRanked false u) := ledgerStore_self hu
  obtain ⟨helo, hcp⟩ := applyLedger_incorrect l.isRanked u
  have hcore : (l.isRanked = true →
        (applyLedger l.isRanked false u).elo =
          (if u.elo - 10 < 0 then 0 else u.elo - 10) ∧
        (applyLedger l.isRanked false u).casualPoints = u.casualPoints) ∧
      (l.isRanked = false →
        (applyLedger l.isRanked false u).casualPoints =
          (if u.casualPoints - 5 < 0 then 0 else u.casualPoints - 5) ∧
        (applyLedger l.isRanked false u).elo = u.elo) := by
    constructor
    · intro hr
      rw [hr] at helo hcp
      simp at helo hcp
      rw [hr]
      constructor
      · rw [helo]
        split <;> split <;> omega
      · exact hcp
    · intro hr
      rw [hr] at helo hcp
      simp at helo hcp
      rw [hr]
      constructor
      · rw [hcp]
        split <;> split <;> omega
      · exact helo
  by_cases hend :
      (humansOf (updateFirst uid (resolvePlayer false) l.players)).length ≤ 1
  · rw [if_pos hend] at hrun
    refine ⟨_, _, hrun, ⟨resolvePlayer false p0, hp1, hid1, hsh', hlv'⟩, ?_⟩
    rcases creditWinner_apply (ledgerStore store uid l.isRanked false)
        (updateFirst uid (resolvePlayer false) l.players)
        (100 + (if l.isRanked then 150 else if l.isCustom then 100 else 0)) uid with
      hsame | ⟨v, hv, hv2⟩
    · refine ⟨applyLedger l.isRanked false u, ?_, hcore.1, hcore.2⟩
      rw [hsame, hled]
    · rw [hled] at hv
      injection hv with hv
      subst hv
      refine ⟨_, hv2, ?_, ?_⟩
      · intro hr
        exact hcore.1 hr
      · intro hr
        exact hcore.2 hr
  · rw [if_neg hend] at hrun
    refine ⟨_, _, hrun, ?_, ⟨applyLedger l.isRanked false u, hled, hcore.1, hcore.2⟩⟩
    by_cases hdeal : ((p0.kind == PKind.human ||
        (p0.kind == PKind.bot && !(jsStartsWith l.kind "solo-"))) &&
        l.isFrenzyMode &&
        ((if p0.kind == PKind.human ||
             (p0.kind == PKind.bot && !(jsStartsWith l.kind "solo-")) then
            l.playerCycles + 1
          else l.playerCycles) %
          ((updateFirst uid (resolvePlayer false) l.players).length * 2) == 0)) = true
    · refine ⟨{ resolvePlayer false p0 with
                cards := (resolvePlayer false p0).cards ++ [card] }, ?_, hid1, hsh', hlv'⟩
      show _ ∈ (if _ then giveCard card _ else _)
      rw [if_pos hdeal]
      exact List.mem_map.mpr ⟨resolvePlayer false p0, hp1, rfl⟩
    · refine ⟨resolvePlayer false p0, ?_, hid1, hsh', hlv'⟩
      show _ ∈ (if _ then giveCard card _ else _)
      rw [if_neg hdeal]
      exact hp1

/-- Closed instance for `shield_blocks_life_not_ledger`. -/
theorem shield_blocks_life_not_ledger_witness :
    gameLobbyShield.gameStarted = true ∧
    gameLobbyShield.players.find? (fun p => p.id == "alice") = some aliceShielded ∧
    gameLobbyShield.players.get? gameLobbyShield.currentPlayerIndex =
      some aliceShielded ∧
    gameLobbyShield.questions.get? gameLobbyShield.currentQuestionIndex =
      some { q := "What is the output of: cout << 2 + 2;", a := "4" } ∧
    rawCorrect "wrong" "4" = false ∧
    0 < aliceShielded.shields ∧ 0 < aliceShielded.lives ∧
    sampleStore "alice" = some aliceUser ∧
    (∃ l' store',
      submitAnswer gameLobbyShield "alice" "wrong" sampleStore
        { id := "card_copy", name := "Copy" } = .ok (l', store') ∧
      (∃ p' ∈ l'.players, p'.id = aliceShielded.id ∧
        p'.shields = aliceShielded.shields - 1 ∧
        p'.lives = aliceShielded.lives) ∧
      (∃ u', store' "alice" = some u' ∧
        (gameLobbyShield.isRanked = true →
          u'.elo = (if aliceUser.elo - 10 < 0 then 0 else aliceUser.elo - 10) ∧
          u'.casualPoints = aliceUser.casualPoints) ∧
        (gameLobbyShield.isRanked = false →
          u'.casualPoints = (if aliceUser.casualPoints - 5 < 0 then 0
                             else aliceUser.casualPoints - 5) ∧
          u'.elo = aliceUser.elo))) :=
  ⟨rfl, by decide, by decide, by decide, by decide, by decide, by decide,
    by decide,
    shield_blocks_life_not_ledger gameLobbyShield "alice" "wrong" sampleStore
      { id := "card_copy", name := "Copy" } aliceShielded aliceShielded
      { q := "What is the output of: cout << 2 + 2;", a := "4" } aliceUser
      rfl (by decide) (by decide) rfl (by decide) (by decide) (by decide)
      (by decide) (by decide)⟩

/-! ## C5 — game end and winner payout -/

/-- **C5**: when at most one human remains after the resolution/elimination
step, the game transitions to Finished with the turn pointer, question index
and cycle counter untouched (the advance is skipped); and when exactly one
human remains whose user document exists after the answering user's ledger
write, that document is credited 100 tokens, plus 150 if the lobby is ranked,
else plus 100 if it is custom (the bonuses are mutually exclusive). -/
theorem game_end_short_circuit (l : Lobby) (uid ua : String) (store : Store)
    (card : AbilityCard) (p0 cur : PlayerInLobby) (q : Question)
    (hgs : l.gameStarted = true)
    (hfind : l.players.find? (fun p => p.id == uid) = some p0)
    (hcur : l.players.get? l.currentPlayerIndex = some cur)
    (hid : p0.id = cur.id)
    (hq : l.questions.get? l.currentQuestionIndex = some q)
    (hend : (humansOf (rosterAfterResolve l.players uid (rawCorrect ua q.a))).length ≤ 1) :
    ∃ l' store', submitAnswer l uid ua store card = .ok (l', store') ∧
      l'.gameStarted = false ∧
      l'.currentPlayerIndex = l.currentPlayerIndex ∧
      l'.currentQuestionIndex = l.currentQuestionIndex ∧
      l'.playerCycles = l.playerCycles ∧
      l'.players = rosterAfterResolve l.players uid (rawCorrect ua q.a) ∧
      (humansOf l'.players).length ≤ 1 ∧
      ∀ w, (rosterAfterResolve l.players uid (rawCorrect ua q.a)).find?
          (fun p => p.kind == PKind.human) = some w →
        ∀ wu, ledgerStore store uid l.isRanked (rawCorrect ua q.a) w.id = some wu →
          store' w.id = some { wu with tokens := wu.tokens +
            (100 + (if l.isRanked then 150 else if l.isCustom then 100 else 0)) } := by
  have hrun := submitAnswer_resolved l uid ua store card p0 cur q hgs hfind hcur hid hq
  rw [if_pos hend] at hrun
  refine ⟨_, _, hrun, rfl, rfl, rfl, rfl, rfl, hend, ?_⟩
  intro w hw wu hwu
  show creditWinner _ _ _ w.id = _
  unfold creditWinner
  simp only [hw, hwu]
  simp [updStore]

/-- Closed instance for `game_end_short_circuit`. -/
theorem game_end_short_circuit_witness :
    soloHumanLobby.gameStarted = true ∧
    soloHumanLobby.players.find? (fun p => p.id == "alice") = some alicePlayer ∧
    soloHumanLobby.players.get? soloHumanLobby.currentPlayerIndex =
      some alicePlayer ∧
    soloHumanLobby.questions.get? soloHumanLobby.currentQuestionIndex =
      some { q := "What is the output of: cout << 2 + 2;", a := "4" } ∧
    (humansOf (rosterAfterResolve soloHumanLobby.players "alice"
      (rawCorrect "4" "4"))).length ≤ 1 ∧
    (∃ l' store',
      submitAnswer soloHumanLobby "alice" "4" sampleStore
        { id := "card_copy", name := "Copy" } = .ok (l', store') ∧
      l'.gameStarted = false ∧
      l'.currentPlayerIndex = soloHumanLobby.currentPlayerIndex ∧
      l'.currentQuestionIndex = soloHumanLobby.currentQuestionIndex ∧
      l'.playerCycles = soloHumanLobby.playerCycles ∧
      l'.players = rosterAfterResolve soloHumanLobby.players "alice"
        (rawCorrect "4" "4") ∧
      (humansOf l'.players).length ≤ 1 ∧
      ∀ w, (rosterAfterResolve soloHumanLobby.players "alice"
          (rawCorrect "4" "4")).find? (fun p => p.kind == PKind.human) = some w →
        ∀ wu, ledgerStore sampleStore "alice" soloHumanLobby.isRanked
            (rawCorrect "4" "4") w.id = some wu →
          store' w.id = some { wu with tokens := wu.tokens +
            (100 + (if soloHumanLobby.isRanked then 150
                    else if soloHumanLobby.isCustom then 100 else 0)) }) :=
  ⟨rfl, by decide, by decide, by decide, by decide,
    game_end_short_circuit soloHumanLobby "alice" "4" sampleStore
      { id := "card_copy", name := "Copy" } alicePlayer alicePlayer
      { q := "What is the output of: cout << 2 + 2;", a := "4" }
      rfl (by decide) (by decide) rfl (by decide) (by decide)⟩

/-! ## C3 — liveness invariant of the turn machine -/

/-- Whatever the frenzy cadence decides, a member of the possibly re-dealt
roster has the lives of an underlying member of the roster. -/
theorem mem_ite_giveCard {c : Prop} [Decidable c] {card : AbilityCard}
    {R : List PlayerInLobby} {p : PlayerInLobby}
    (hp : p ∈ (if c then giveCard card R else R)) :
    ∃ p1 ∈ R, p.lives = p1.lives := by
  split at hp
  · obtain ⟨p1, h1, he⟩ := mem_giveCard hp
    exact ⟨p1, h1, by rw [he]⟩
  · exact ⟨p, hp, rfl⟩

/-- Whatever the frenzy cadence decides, the possibly re-dealt roster has an
entry at any index the roster has, with the same lives. -/
theorem get?_ite_giveCard {c : Prop} [Decidable c] (card : AbilityCard)
    (R : List PlayerInLobby) (i : Nat) {pw : PlayerInLobby}
    (hpw : R.get? i = some pw) (hlv : 0 < pw.lives) :
    ∃ cp, (if c then giveCard card R else R).get? i = some cp ∧
      0 < cp.lives := by
  split
  · refine ⟨{ pw with cards := pw.cards ++ [card] }, ?_, hlv⟩
    rw [get?_giveCard, hpw]
    rfl
  · exact ⟨pw, hpw, hlv⟩

/-- **C3**: starting from a roster in which every player has positive lives,
any resolved answer that leaves the game in progress leaves every rostered
player with positive lives (the in-turn player either survives or is removed),
at least one player in the roster, and the current-player index valid and
pointing at a player with positive lives. -/
theorem turn_invariant_preserved (l : Lobby) (uid ua : String) (store : Store)
    (card : AbilityCard)
    (halive : ∀ p ∈ l.players, 0 < p.lives) :
    ∀ l' store', submitAnswer l uid ua store card = .ok (l', store') →
      l'.gameStarted = true →
      (∀ p ∈ l'.players, 0 < p.lives) ∧
      (∃ cp, l'.players.get? l'.currentPlayerIndex = some cp ∧ 0 < cp.lives) := by
  intro l' store' hok hgs'
  unfold submitAnswer at hok
  split at hok
  · simp at hok
  · split at hok
    · simp at hok
    · rename_i p0 hfind
      split at hok
      · simp at hok
      · rename_i cur hcur
        split at hok
        · simp at hok
        · split at hok
          · simp at hok
          · rename_i q hq
            dsimp only at hok
            split at hok
            · -- game-end branch: contradicts gameStarted = true
              rename_i hend
              simp only [Except.ok.injEq, Prod.mk.injEq] at hok
              obtain ⟨hl, hs⟩ := hok
              subst hl
              simp at hgs'
            · rename_i hend
              simp only [Except.ok.injEq, Prod.mk.injEq] at hok
              obtain ⟨hl, hs⟩ := hok
              subst hl
              have halive1 : ∀ p ∈ rosterAfterResolve l.players uid (rawCorrect ua q.a),
                  0 < p.lives := rosterAfterResolve_alive halive
              have hlen : 0 < (rosterAfterResolve l.players uid (rawCorrect ua q.a)).length := by
                have h1 := List.length_filter_le (fun p => p.kind == PKind.human)
                  (rosterAfterResolve l.players uid (rawCorrect ua q.a))
                unfold humansOf at hend
                omega
              have hidx : (l.currentPlayerIndex + 1) %
                  (rosterAfterResolve l.players uid (rawCorrect ua q.a)).length <
                  (rosterAfterResolve l.players uid (rawCorrect ua q.a)).length :=
                Nat.mod_lt _ hlen
              obtain ⟨pw, hpw⟩ : ∃ pw,
                  (rosterAfterResolve l.players uid (rawCorrect ua q.a)).get?
                    ((l.currentPlayerIndex + 1) %
                      (rosterAfterResolve l.players uid (rawCorrect ua q.a)).length) =
                    some pw :=
                ⟨_, List.get?_eq_get hidx⟩
              have hpwmem : pw ∈ rosterAfterResolve l.players uid (rawCorrect ua q.a) := by
                exact List.get?_mem hpw
              have hpwlive : 0 < pw.lives := halive1 pw hpwmem
              have hskip : skipDead (rosterAfterResolve l.players uid (rawCorrect ua q.a))
                  ((l.currentPlayerIndex + 1) %
                    (rosterAfterResolve l.players uid (rawCorrect ua q.a)).length)
                  (rosterAfterResolve l.players uid (rawCorrect ua q.a)).length =
                  (l.currentPlayerIndex + 1) %
                    (rosterAfterResolve l.players uid (rawCorrect ua q.a)).length :=
                skipDead_eq_of_alive _ hpw hpwlive
              constructor
              · intro p hp
                obtain ⟨p1, hp1, he⟩ := mem_ite_giveCard hp
                rw [he]
                exact halive1 p1 hp1
              · dsimp only
                rw [hskip]
                exact get?_ite_giveCard card _ _ hpw hpwlive

/-- Closed instance for `turn_invariant_preserved`. -/
theorem turn_invariant_preserved_witness :
    (∀ p ∈ gameLobby.players, 0 < p.lives) ∧
    (∀ l' store',
      submitAnswer gameLobby "alice" "4" sampleStore
        { id := "card_copy", name := "Copy" } = .ok (l', store') →
      l'.gameStarted = true →
      (∀ p ∈ l'.players, 0 < p.lives) ∧
      (∃ cp, l'.players.get? l'.currentPlayerIndex = some cp ∧ 0 < cp.lives)) :=
  ⟨by decide,
    turn_invariant_preserved gameLobby "alice" "4" sampleStore
      { id := "card_copy", name := "Copy" } (by decide)⟩
